import Mathlib

/-!
BlockCacheImpl (cache/blockcache.h)

A shallow embedding of the persistent block cache tier declared in
`cache/blockcache.h`, and theorems about it.

Two kinds of definitions appear below.

* Definitions translated from `cache/blockcache.h`: `InsertOp` and its two
  constructors, `Stats`, the data members of `BlockCacheImpl`, the constructor
  (with the order in which C++ initialises the members), `PrintStats`,
  `Flush_TEST` and `GetCachePath`.
* Definitions whose C++ bodies live in files that are not part of the sources at
  hand (`blockcache.cc`, `cache_util.h`, `blockcache_file.h`,
  `blockcache_file_writer.h`, `blockcache_metadata.h`, `util/histogram.h`).
  Those are modelled from the design document; each carries a doc comment that
  starts with `Modelled from the spec:`.

Threads are modelled by interleaving: every operation is one atomic transition
of the shared state (the read/write lock `lock_` therefore has no field of its
own), and the insert thread and the writer threads contribute transitions of
their own (`World.InsertMain_iteration`, `World.ThreadedWriter_Complete`).
A write that fails for good and the reclaiming of a whole file are transitions
too (`World.ThreadedWriter_Fail`, `World.Reclaim`).  `Open()`, whose body is not
among the sources, is not modelled.
-/

namespace rocksdb

/-! ## Basic types -/

/-- A byte buffer (`char[]`). -/
abbrev Bytes := List UInt8

/-- Modelled from the spec: the `Status` codes of the error taxonomy (section 7);
`include/rocksdb/status.h` is not among the sources. -/
inductive Status where
  | OK
  | NotFound
  | ResourceExhausted
  | IOError
deriving DecidableEq

/-- The fields of `BlockCacheOptions` read by `cache/blockcache.h` (`path`,
`write_buffer_size`, `write_buffer_count`, `bufferpool_limit`,
`max_write_pipeline_backlog_size`, `writer_qdepth`); the struct itself is
declared in a header that is not among the sources.  The last two fields are
modelled from the spec's configuration surface: the per-file size limit and the
overall cache byte capacity.  The logger `log` is an output sink and is
represented by the `CtorEvent.Info` event instead of a field. -/
structure BlockCacheOptions where
  path : String
  write_buffer_size : Nat
  write_buffer_count : Nat
  bufferpool_limit : Nat
  max_write_pipeline_backlog_size : Nat
  writer_qdepth : Nat
  cache_file_size : Nat
  cache_size : Nat
deriving DecidableEq

/-! ## InsertOp (blockcache.h, lines 90-109) -/

/-- The struct `InsertOp`: `key_`, `data_` (a `unique_ptr<char[]>`, `none` when
null), `size_` and `exit_loop_`. -/
structure InsertOp where
  key_ : String
  data_ : Option Bytes
  size_ : Nat
  exit_loop_ : Bool
deriving DecidableEq

/-- The constructor `InsertOp(const bool exit_loop)` (line 91): only `exit_loop_`
is initialised by the constructor; `key_` is the empty string, `data_` the null
pointer and `size_` keeps its default member initialiser `0` (line 107). -/
def InsertOp.new_exit (exit_loop : Bool) : InsertOp :=
  { key_ := "", data_ := none, size_ := 0, exit_loop_ := exit_loop }

/-- The constructor `InsertOp(std::string&& key, std::unique_ptr<char[]>&& data,
const size_t size)` (line 93): `exit_loop_` keeps its default member initialiser
`false` (line 108). -/
def InsertOp.new (key : String) (data : Option Bytes) (size : Nat) : InsertOp :=
  { key_ := key, data_ := data, size_ := size, exit_loop_ := false }

/-- The method `size_t Size() const { return size_; }` (line 103). -/
def InsertOp.Size (op : InsertOp) : Nat := op.size_

/-! ## Statistics (blockcache.h, lines 124-130) -/

/-- Modelled from the spec: `HistogramImpl` (`util/histogram.h` is not among the
sources), an accumulating histogram; it is kept as the list of the samples added
so far, oldest first. -/
structure HistogramImpl where
  samples : List Nat := []
deriving DecidableEq

/-- Modelled from the spec: `HistogramImpl::Add`, which accumulates one sample. -/
def HistogramImpl.Add (h : HistogramImpl) (v : Nat) : HistogramImpl :=
  { samples := h.samples ++ [v] }

/-- The struct `Stats`: three histograms and two `uint64_t` counters with default
member initialiser `0`. -/
structure Stats where
  bytes_pipelined_ : HistogramImpl := {}
  bytes_written_ : HistogramImpl := {}
  bytes_read_ : HistogramImpl := {}
  cache_hits_ : Nat := 0
  cache_misses_ : Nat := 0
deriving DecidableEq

/-- Increment of a `uint64_t` counter. -/
def incr_u64 (n : Nat) : Nat := (n + 1) % 2 ^ 64

/-! ## Collaborators of the orchestrator -/

/-- Modelled from the spec: `BoundedQueue<InsertOp>` (`cache/cache_util.h` is not
among the sources), section 4.2: a FIFO queue with a maximum backlog.  The
backlog is the aggregate of `InsertOp::Size()` over the queued operations. -/
structure BoundedQueue where
  max_size_ : Nat
  q_ : List InsertOp
deriving DecidableEq

/-- Modelled from the spec: the constructor `BoundedQueue(max_size)`, an empty
queue with the given bound. -/
def BoundedQueue.new (max_size : Nat) : BoundedQueue :=
  { max_size_ := max_size, q_ := [] }

/-- Modelled from the spec: `BoundedQueue::Size()`, the current backlog. -/
def BoundedQueue.Size (q : BoundedQueue) : Nat := (q.q_.map InsertOp.Size).sum

/-- Modelled from the spec: `BoundedQueue::Push`, section 4.2: "`Push` on a full
queue fails immediately"; otherwise the operation is appended at the back. -/
def BoundedQueue.Push (q : BoundedQueue) (op : InsertOp) : Option BoundedQueue :=
  if q.Size + op.Size ≤ q.max_size_ then some { q with q_ := q.q_ ++ [op] } else none

/-- Modelled from the spec: the non-blocking part of `BoundedQueue::PopBlocking`:
the oldest operation, or `none` when the queue is empty (the consumer then stays
suspended). -/
def BoundedQueue.Pop (q : BoundedQueue) : Option (InsertOp × BoundedQueue) :=
  match q.q_ with
  | [] => none
  | op :: rest => some (op, { q with q_ := rest })

/-- Modelled from the spec: the value of a `MetadataEntry` (section 3): file
identifier, byte offset, size. -/
structure LBA where
  cache_id : Nat
  off : Nat
  size : Nat
deriving DecidableEq

/-- Modelled from the spec: a key/location pair waiting in a write buffer for its
bytes to become durable (section 4.4, "the corresponding key→(file id, offset,
size) entries").  The field `data` records the bytes that were passed to `Insert`; no
operation reads it, it only serves to state the theorems. -/
structure PendingEntry where
  key : String
  lba : LBA
  data : Bytes
deriving DecidableEq

/-- Modelled from the spec: `WriteBuffer` (section 3): a fixed-capacity buffer with
a fill offset (`data.length`), together with the entries to publish once it has
been flushed. -/
structure WriteBuffer where
  capacity : Nat
  data : Bytes
  entries : List PendingEntry
deriving DecidableEq

/-- Whether the buffer has no room left. -/
def WriteBuffer.full (b : WriteBuffer) : Bool := decide (b.capacity ≤ b.data.length)

/-- Modelled from the spec: `CacheWriteBufferAllocator` (`cache/cache_util.h` is not
among the sources), section 4.1: a bounded pool of fixed-size buffers with a
global byte ceiling.  A default-constructed allocator has all fields `0`. -/
structure CacheWriteBufferAllocator where
  buffer_size_ : Nat := 0
  buffer_count_ : Nat := 0
  limit_ : Nat := 0
  in_use_ : Nat := 0
deriving DecidableEq

/-- Modelled from the spec: `CacheWriteBufferAllocator::Init(size, count, limit)`:
records the configuration (fixed buffer size, buffer count, byte limit). -/
def CacheWriteBufferAllocator.Init (a : CacheWriteBufferAllocator)
    (size count limit : Nat) : CacheWriteBufferAllocator :=
  { a with buffer_size_ := size, buffer_count_ := count, limit_ := limit }

/-- Modelled from the spec: `Allocate`, which fails when the pool is exhausted
(all buffers borrowed, or the byte ceiling reached). -/
def CacheWriteBufferAllocator.Allocate (a : CacheWriteBufferAllocator) :
    Option (WriteBuffer × CacheWriteBufferAllocator) :=
  if 0 < a.buffer_size_ ∧ a.in_use_ < a.buffer_count_
      ∧ (a.in_use_ + 1) * a.buffer_size_ ≤ a.limit_ then
    some ({ capacity := a.buffer_size_, data := [], entries := [] },
          { a with in_use_ := a.in_use_ + 1 })
  else none

/-- Modelled from the spec: `Release`, which returns one buffer to the pool. -/
def CacheWriteBufferAllocator.Release (a : CacheWriteBufferAllocator) :
    CacheWriteBufferAllocator :=
  { a with in_use_ := a.in_use_ - 1 }

/-- Modelled from the spec: `ThreadedWriter` (`cache/blockcache_file_writer.h` is
not among the sources); only its configured depth is state of its own, the
buffers submitted to it are kept with the file they belong to. -/
structure ThreadedWriter where
  qdepth_ : Nat
deriving DecidableEq

/-- Modelled from the spec: `BlockCacheMetadata` (`cache/blockcache_metadata.h` is
not among the sources), section 4.5: the index from key to location. -/
structure BlockCacheMetadata where
  index_ : List (String × LBA) := []
deriving DecidableEq

/-- The entry point of a thread of execution. -/
inductive ThreadEntry where
  | InsertMain
deriving DecidableEq

/-! ## BlockCacheImpl: data members and constructor (lines 34-45, 132-142) -/

/-- The data members of `BlockCacheImpl`, in declaration order (lines 132-142),
`lock_` excepted.  `insert_th_` is a `std::thread`: `none` when it has no
associated thread of execution, `some e` when it was constructed with entry
point `e` (which starts the thread).  `cacheFile_` is a pointer: `none` is
`nullptr`, `some id` points to the file object with that identifier. -/
structure BlockCacheImpl where
  opt_ : BlockCacheOptions
  insert_ops_ : BoundedQueue
  insert_th_ : Option ThreadEntry
  writerCacheId_ : Nat
  cacheFile_ : Option Nat
  bufferAllocator_ : CacheWriteBufferAllocator
  writer_ : ThreadedWriter
  metadata_ : BlockCacheMetadata
  size_ : Nat
  stats_ : Stats
deriving DecidableEq

/-- The names of the data members. -/
inductive Member where
  | lock_ | opt_ | insert_ops_ | insert_th_ | writerCacheId_ | cacheFile_
  | bufferAllocator_ | writer_ | metadata_ | size_ | stats_
deriving DecidableEq

/-- What the constructor does, one event per action. -/
inductive CtorEvent where
  /-- the member is initialised -/
  | init (m : Member)
  /-- a new thread of execution starts running the entry point -/
  | thread_start (e : ThreadEntry)
  /-- the call `Info(opt_.log, ...)` of the constructor body -/
  | Info (size count limit : Nat)
  /-- the call `bufferAllocator_.Init(...)` of the constructor body -/
  | allocator_Init (size count limit : Nat)
deriving DecidableEq

/-- The actions of the constructor `BlockCacheImpl(const BlockCacheOptions&)` in
the order C++ performs them: the data members in declaration order (lines
132-142), whatever the order of the member initialiser list, then the
constructor body (lines 39-44).  Constructing `insert_th_` from
`(&BlockCacheImpl::InsertMain, this)` (line 37) starts the thread. -/
def BlockCacheImpl.ctor_events (opt : BlockCacheOptions) : List CtorEvent :=
  [ .init .lock_,
    .init .opt_,
    .init .insert_ops_,
    .thread_start .InsertMain, .init .insert_th_,
    .init .writerCacheId_,
    .init .cacheFile_,
    .init .bufferAllocator_,
    .init .writer_,
    .init .metadata_,
    .init .size_,
    .init .stats_,
    .Info opt.write_buffer_size opt.write_buffer_count opt.bufferpool_limit,
    .allocator_Init opt.write_buffer_size opt.write_buffer_count opt.bufferpool_limit ]

/-- The object produced by the constructor (lines 34-45). -/
def BlockCacheImpl.ctor (opt : BlockCacheOptions) : BlockCacheImpl :=
  { opt_ := opt,
    insert_ops_ := BoundedQueue.new opt.max_write_pipeline_backlog_size,
    insert_th_ := some .InsertMain,
    writerCacheId_ := 0,
    cacheFile_ := none,
    bufferAllocator_ :=
      CacheWriteBufferAllocator.Init {} opt.write_buffer_size opt.write_buffer_count
        opt.bufferpool_limit,
    writer_ := { qdepth_ := opt.writer_qdepth },
    metadata_ := {},
    size_ := 0,
    stats_ := {} }

/-- The method `GetCachePath` (line 119): `opt_.path + "/cache"`. -/
def BlockCacheImpl.GetCachePath (c : BlockCacheImpl) : String := c.opt_.path ++ "/cache"

/-! ## PrintStats (lines 64-78) -/

/-- A `std::ostringstream`: the characters written so far. -/
structure ostringstream where
  buf : String := ""
deriving DecidableEq

/-- The insertion `os << s` of a string. -/
def ostringstream.put (os : ostringstream) (s : String) : ostringstream :=
  { buf := os.buf ++ s }

/-- The insertion `os << n` of a `uint64_t`: its decimal rendering. -/
def ostringstream.put_u64 (os : ostringstream) (n : Nat) : ostringstream :=
  { buf := os.buf ++ Nat.repr n }

/-- The insertion `os << std::endl`: a newline (and a flush). -/
def ostringstream.endl (os : ostringstream) : ostringstream :=
  { buf := os.buf ++ "\n" }

/-- The member `os.str()`. -/
def ostringstream.str (os : ostringstream) : String := os.buf

/-- The method `PrintStats` (lines 64-78).  `ToString` stands for
`HistogramImpl::ToString`, whose body is not among the sources.  The method is
not `const`, so the object after the call is returned with the text. -/
def BlockCacheImpl.PrintStats (ToString : HistogramImpl → String) (c : BlockCacheImpl) :
    String × BlockCacheImpl :=
  let os : ostringstream := {}
  let os := ((os.put "Blockcache stats: ").endl.put "* bytes piplined: ").endl
  let os := (os.put (ToString c.stats_.bytes_pipelined_)).endl
  let os := (os.put "* bytes written:").endl
  let os := (os.put (ToString c.stats_.bytes_written_)).endl
  let os := (os.put "* bytes read:").endl
  let os := (os.put (ToString c.stats_.bytes_read_)).endl
  let os := (os.put "* cache_hits:").endl
  let os := (os.put_u64 c.stats_.cache_hits_).endl
  let os := (os.put "* cache_misses:").endl
  let os := (os.put_u64 c.stats_.cache_misses_).endl
  (os.str, c)

/-! ## Cache files, writer and metadata index (modelled from the design document) -/

/-- Modelled from the spec: what the design document leaves open and the model
therefore takes as a parameter: the layout of the record header written in
front of each payload (section 4.3: key length, data length, checksum), and
whether publishing a key that is already in the index replaces its location
(`true`) or leaves the existing one in place (`false`), and whether the insert
thread drops a request whose key is already in the index instead of appending
it again. -/
structure ModelParams where
  header : String → Bytes → Bytes
  replace_existing : Bool
  drop_present : Bool

/-- Modelled from the spec: `WriteableCacheFile` (`cache/blockcache_file.h` is not
among the sources), sections 3 and 4.3.  `disk_` holds the bytes that are
durable; `pending_` the buffers handed to the writer and not yet flushed, oldest
first; `buf_` the buffer being filled; `sealed_` the open/sealed state;
`failed_` whether the file has been marked failed after an I/O failure
(sections 4.4 and 7). -/
structure WriteableCacheFile where
  cache_id : Nat
  max_size_ : Nat
  disk_ : Bytes
  pending_ : List WriteBuffer
  buf_ : Option WriteBuffer
  sealed_ : Bool
  failed_ : Bool
deriving DecidableEq

/-- The in-memory buffers of a file, in file order. -/
def WriteableCacheFile.bufs (f : WriteableCacheFile) : List WriteBuffer :=
  f.pending_ ++ f.buf_.toList

/-- All bytes appended to the file so far, durable or not. -/
def WriteableCacheFile.content (f : WriteableCacheFile) : Bytes :=
  f.disk_ ++ (f.bufs.map WriteBuffer.data).flatten

/-- Total bytes written to the file (section 3). -/
def WriteableCacheFile.Size (f : WriteableCacheFile) : Nat := f.content.length

/-- Modelled from the spec: the filling buffer is handed to the writer. -/
def WriteableCacheFile.Submit (f : WriteableCacheFile) : WriteableCacheFile :=
  match f.buf_ with
  | none => f
  | some b => { f with pending_ := f.pending_ ++ [b], buf_ := none }

/-- Modelled from the spec: `Seal()`: the file stops accepting appends and its
filling buffer goes to the writer. -/
def WriteableCacheFile.Seal (f : WriteableCacheFile) : WriteableCacheFile :=
  { f.Submit with sealed_ := true }

/-- Modelled from the spec: one byte is written into the filling buffer; "if the
buffer has insufficient remaining room, the file requests a new buffer from the
allocator" (the full one goes to the writer), and the write fails when none is
available. -/
def WriteableCacheFile.PutByte (x : UInt8)
    (fa : WriteableCacheFile × CacheWriteBufferAllocator) :
    Option (WriteableCacheFile × CacheWriteBufferAllocator) :=
  match fa.1.buf_ with
  | some b =>
    if b.full then
      match fa.2.Allocate with
      | none => none
      | some (nb, a) =>
        some ({ fa.1 with pending_ := fa.1.pending_ ++ [b],
                          buf_ := some { nb with data := [x] } }, a)
    else some ({ fa.1 with buf_ := some { b with data := b.data ++ [x] } }, fa.2)
  | none =>
    match fa.2.Allocate with
    | none => none
    | some (nb, a) => some ({ fa.1 with buf_ := some { nb with data := [x] } }, a)

/-- Modelled from the spec: the bytes of a record are written one after the other. -/
def WriteableCacheFile.PutBytes :
    Bytes → WriteableCacheFile × CacheWriteBufferAllocator →
    Option (WriteableCacheFile × CacheWriteBufferAllocator)
  | [], fa => some fa
  | x :: xs, fa => (WriteableCacheFile.PutByte x fa).bind (WriteableCacheFile.PutBytes xs)

/-- Modelled from the spec: `Append(key, data) -> offset or full-signal` (section
4.3).  The record is the header followed by the payload; the location names the
payload.  `none` is the full-signal, in which case nothing has been written.
The entry to publish travels with the buffer that holds the last byte of the
record.  A buffer that is full goes to the writer, and a file that has reached
its maximum size is sealed. -/
def WriteableCacheFile.Append (P : ModelParams) (key : String) (data : Bytes)
    (f : WriteableCacheFile) (a : CacheWriteBufferAllocator) :
    Option (LBA × WriteableCacheFile × CacheWriteBufferAllocator) :=
  if f.sealed_ then none
  else
    match WriteableCacheFile.PutBytes (P.header key data ++ data) (f, a) with
    | none => none
    | some (f1, a1) =>
      match (match f1.buf_ with
             | some b => some (b, a1)
             | none => a1.Allocate) with
      | none => none
      | some (b, a2) =>
        let lba : LBA :=
          { cache_id := f.cache_id, off := f.Size + (P.header key data).length,
            size := data.length }
        let b1 : WriteBuffer :=
          { b with entries := b.entries ++ [{ key := key, lba := lba, data := data }] }
        let f2 : WriteableCacheFile := { f1 with buf_ := some b1 }
        let f3 := if b1.full then f2.Submit else f2
        let f4 := if f3.max_size_ ≤ f3.Size then f3.Seal else f3
        some (lba, f4, a2)

/-- Modelled from the spec: `Read(offset, size) -> data`, "for already-committed
offsets only"; a file marked failed is "excluded from future writes/reads"
(section 7). -/
def WriteableCacheFile.Read (f : WriteableCacheFile) (off size : Nat) : Option Bytes :=
  if f.failed_ then none
  else if off + size ≤ f.disk_.length then some ((f.disk_.drop off).take size) else none

/-- Modelled from the spec: `BlockCacheMetadata::Lookup(key) -> location or
not-found`. -/
def BlockCacheMetadata.Lookup (m : BlockCacheMetadata) (key : String) : Option LBA :=
  match m.index_.find? (fun e => decide (e.1 = key)) with
  | some e => some e.2
  | none => none

/-- Modelled from the spec: `BlockCacheMetadata::Insert(key, location)`. -/
def BlockCacheMetadata.Insert (replace_existing : Bool) (m : BlockCacheMetadata)
    (key : String) (lba : LBA) : BlockCacheMetadata :=
  if replace_existing then
    { index_ := (key, lba) :: m.index_.filter (fun e => decide (e.1 ≠ key)) }
  else
    match m.Lookup key with
    | some _ => m
    | none => { index_ := (key, lba) :: m.index_ }

/-- Modelled from the spec: `BlockCacheMetadata::Erase(key) -> removed?`. -/
def BlockCacheMetadata.Erase (m : BlockCacheMetadata) (key : String) :
    Bool × BlockCacheMetadata :=
  ((m.Lookup key).isSome, { index_ := m.index_.filter (fun e => decide (e.1 ≠ key)) })

/-! ## The orchestrator's operations (modelled from the design document) -/

/-- Modelled from the spec: the cache together with what it shares with its
threads and the file system:
the file objects, the operation the insert thread holds between two steps of
its loop, whether `InsertMain` has returned, and two histories that no
operation reads and that only serve to state the theorems: `durable`, the
records that have been durably flushed and whose key has not been erased since,
each as key, bytes and identifier of the file it was flushed to; and
`reclaimed`, the identifiers of the files that have been reclaimed. -/
structure World where
  cache : BlockCacheImpl
  files : List WriteableCacheFile
  op_ : Option InsertOp
  exited_ : Bool
  durable : List (String × Bytes × Nat)
  reclaimed : List Nat
deriving DecidableEq

/-- The world right after the constructor has run. -/
def World.init (opt : BlockCacheOptions) : World :=
  { cache := BlockCacheImpl.ctor opt, files := [], op_ := none, exited_ := false,
    durable := [], reclaimed := [] }

/-- The file object with the given identifier. -/
def getFile (files : List WriteableCacheFile) (id : Nat) : Option WriteableCacheFile :=
  files.find? (fun f => decide (f.cache_id = id))

/-- The file object with the identifier of `f` is replaced by `f`. -/
def setFile (files : List WriteableCacheFile) (f : WriteableCacheFile) :
    List WriteableCacheFile :=
  files.map (fun g => if g.cache_id = f.cache_id then f else g)

/-- Modelled from the spec: `BlockCacheImpl::Reserve` (body in `blockcache.cc`, not
among the sources), section 4.6: "checks and, if capacity allows, increments the
tracked total size; returns false without side effects if it would exceed
capacity". -/
def BlockCacheImpl.Reserve (size : Nat) (c : BlockCacheImpl) : Bool × BlockCacheImpl :=
  if c.size_ + size ≤ c.opt_.cache_size then (true, { c with size_ := c.size_ + size })
  else (false, c)

/-- Modelled from the spec: `BlockCacheImpl::Insert` (body in `blockcache.cc`, not
among the sources), section 4.6: takes a copy of the `size` bytes at `data` and
enqueues an `InsertOp`; "returns success once queued", "a resource-exhausted
failure if the queue is full".  The bytes are passed as the list `data`, whose
length is the `size` argument. -/
def World.Insert (key : String) (data : Bytes) (w : World) : Status × World :=
  match w.cache.insert_ops_.Push (InsertOp.new key (some data) data.length) with
  | none => (Status.ResourceExhausted, w)
  | some q =>
    (Status.OK,
      { w with cache :=
        { w.cache with
          insert_ops_ := q,
          stats_ := { w.cache.stats_ with
            bytes_pipelined_ := w.cache.stats_.bytes_pipelined_.Add data.length } } })

/-- Modelled from the spec: `BlockCacheImpl::Lookup` (body in `blockcache.cc`, not
among the sources), section 4.6: "queries the Metadata Index; on hit, reads from
the identified Cache File and returns a fresh owned copy of the bytes; on miss
increments miss counter and reports not-found".  The result is the status and,
on success, the buffer with its size. -/
def World.Lookup (key : String) (w : World) : (Status × Option (Bytes × Nat)) × World :=
  match w.cache.metadata_.Lookup key with
  | none =>
    ((Status.NotFound, none),
      { w with cache := { w.cache with stats_ :=
        { w.cache.stats_ with cache_misses_ := incr_u64 w.cache.stats_.cache_misses_ } } })
  | some lba =>
    match (getFile w.files lba.cache_id).bind (fun f => f.Read lba.off lba.size) with
    | none => ((Status.IOError, none), w)
    | some d =>
      ((Status.OK, some (d, lba.size)),
        { w with cache := { w.cache with stats_ :=
          { w.cache.stats_ with
            cache_hits_ := incr_u64 w.cache.stats_.cache_hits_,
            bytes_read_ := w.cache.stats_.bytes_read_.Add lba.size } } })

/-- Modelled from the spec: `BlockCacheImpl::Erase` (body in `blockcache.cc`, not
among the sources), section 4.6: "removes the metadata entry; returns whether
something was removed".  File bytes are not reclaimed. -/
def World.Erase (key : String) (w : World) : Bool × World :=
  let r := w.cache.metadata_.Erase key
  (r.1, { w with cache := { w.cache with metadata_ := r.2 },
                 durable := w.durable.filter (fun e => decide (e.1 ≠ key)) })

/-- Modelled from the spec: `BlockCacheImpl::Close` (body in `blockcache.cc`, not
among the sources): "signals the insert thread to drain (pushes the exit
sentinel)"; the joins are the later steps of the threads. -/
def World.Close (w : World) : Status × World :=
  match w.cache.insert_ops_.Push (InsertOp.new_exit true) with
  | none => (Status.ResourceExhausted, w)
  | some q => (Status.OK, { w with cache := { w.cache with insert_ops_ := q } })

/-- Modelled from the spec: `BlockCacheImpl::NewCacheFile` (body in `blockcache.cc`,
not among the sources): a new, empty, open file with the next identifier
becomes the current file; identifiers increase monotonically (section 3). -/
def World.NewCacheFile (w : World) : World :=
  let id := w.cache.writerCacheId_ + 1
  { w with
    cache := { w.cache with writerCacheId_ := id, cacheFile_ := some id },
    files := w.files ++
      [{ cache_id := id, max_size_ := w.cache.opt_.cache_file_size, disk_ := [],
         pending_ := [], buf_ := none, sealed_ := false, failed_ := false }] }

/-- The current writable file, when there is one that is still open. -/
def World.currentFile (w : World) : Option WriteableCacheFile :=
  match w.cache.cacheFile_ with
  | none => none
  | some id =>
    match getFile w.files id with
    | none => none
    | some f => if f.sealed_ then none else some f

/-- The current file, if any, is sealed. -/
def World.SealCurrent (w : World) : World :=
  match w.cache.cacheFile_ with
  | none => w
  | some id =>
    match getFile w.files id with
    | none => w
    | some f => { w with files := setFile w.files f.Seal }

/-- The payload of a queued request: the `size_` bytes at `data_`. -/
def InsertOp.payload (op : InsertOp) : Bytes := (op.data_.getD []).take op.size_

/-- Modelled from the spec: the state `ENSURE_CURRENT_FILE (rotate/create if full
or absent)` of the insert thread. -/
def World.EnsureCurrentFile (w : World) : World :=
  match w.currentFile with
  | some _ => w
  | none => w.NewCacheFile

/-- Modelled from the spec: the states `APPEND → (file reports full → ROTATE, retry
APPEND)` of the insert thread.  On the full-signal the current file is sealed, a
new file is created, and the thread keeps the operation for the retry.  With
`P.drop_present`, a request whose key is already in the index is dropped. -/
def World.AppendOp (P : ModelParams) (op : InsertOp) (w : World) : World :=
  if P.drop_present = true ∧ (w.cache.metadata_.Lookup op.key_).isSome = true then
    { w with op_ := none }
  else
    match w.currentFile with
    | none => { w with op_ := some op }
    | some f =>
      match f.Append P op.key_ op.payload w.cache.bufferAllocator_ with
      | some (_, f1, a) =>
        { w with cache := { w.cache with bufferAllocator_ := a },
                 files := setFile w.files f1, op_ := none }
      | none => { w.SealCurrent.NewCacheFile with op_ := some op }

/-- Modelled from the spec: one pass through the loop of
`BlockCacheImpl::InsertMain` (body in `blockcache.cc`, not among the sources),
section 4.6: `WAIT_FOR_OP → (exit sentinel? → DRAIN_AND_STOP) →
ENSURE_CURRENT_FILE (rotate/create if full or absent) → APPEND → (file reports
full → ROTATE, retry APPEND) → loop`.  The retry is the next pass, made with
the operation the thread still holds.  On the exit sentinel the current file is
sealed and the thread stops. -/
def World.InsertMain_iteration (P : ModelParams) (w : World) : World :=
  if w.exited_ ∨ w.cache.insert_th_ = none then w
  else
    match (match w.op_ with
           | some op => some (op, w.cache.insert_ops_)
           | none => w.cache.insert_ops_.Pop) with
    | none => w
    | some (op, q) =>
      if op.exit_loop_ then
        { World.SealCurrent { w with cache := { w.cache with insert_ops_ := q } } with
          op_ := none, exited_ := true }
      else
        World.AppendOp P op
          (World.EnsureCurrentFile { w with cache := { w.cache with insert_ops_ := q } })

/-- Modelled from the spec: all entries of a flushed buffer are published, in the
order in which their records were appended. -/
def BlockCacheMetadata.Publish (replace_existing : Bool) (m : BlockCacheMetadata)
    (es : List PendingEntry) : BlockCacheMetadata :=
  es.foldl (fun m e => m.Insert replace_existing e.key e.lba) m

/-- Modelled from the spec: the completion of a job of `ThreadedWriter` (section
4.4) for the file `cache_id`: the oldest buffer submitted for that file is
written to the file's storage, then its entries are published in the index, and
the buffer goes back to the allocator.  Buffers of one file complete in the
order of submission, buffers of different files in any order. -/
def World.ThreadedWriter_Complete (P : ModelParams) (cache_id : Nat) (w : World) : World :=
  match getFile w.files cache_id with
  | none => w
  | some f =>
    match f.pending_ with
    | [] => w
    | b :: rest =>
      { w with
        files := setFile w.files { f with disk_ := f.disk_ ++ b.data, pending_ := rest },
        cache := { w.cache with
          metadata_ := w.cache.metadata_.Publish P.replace_existing b.entries,
          bufferAllocator_ := w.cache.bufferAllocator_.Release,
          stats_ := { w.cache.stats_ with
            bytes_written_ := w.cache.stats_.bytes_written_.Add b.data.length } },
        durable := w.durable ++ b.entries.map (fun e => (e.key, e.data, e.lba.cache_id)) }

/-- Modelled from the spec: `count` buffers go back to the allocator. -/
def CacheWriteBufferAllocator.ReleaseMany (a : CacheWriteBufferAllocator) (count : Nat) :
    CacheWriteBufferAllocator :=
  { a with in_use_ := a.in_use_ - count }

/-- Modelled from the spec: a job of `ThreadedWriter` for the file `cache_id` fails
for good (sections 4.4 and 7): "the failure is surfaced to the orchestrator
(marks the file as failed; entries for it are not published ...) and the buffer
is released regardless"; "the affected file is marked failed and excluded from
future writes/reads".  The file takes no further write: it is sealed and its
other unflushed buffers are dropped and released as well. -/
def World.ThreadedWriter_Fail (cache_id : Nat) (w : World) : World :=
  match getFile w.files cache_id with
  | none => w
  | some f =>
    match f.pending_ with
    | [] => w
    | _ :: _ =>
      { w with
        files := setFile w.files
          { f with pending_ := [], buf_ := none, sealed_ := true, failed_ := true },
        cache := { w.cache with
          bufferAllocator_ := w.cache.bufferAllocator_.ReleaseMany f.bufs.length } }

/-- Modelled from the spec: a whole file is reclaimed (sections 3 and 4.5): "space
reclamation happens when an entire file is deleted"; "entries are removed on
`Erase` or when their owning file is reclaimed".  Only a sealed file is
reclaimed (the current writable file is not); which file and when is the
decision of an external policy, so every sealed file may be reclaimed at any
time.  Its unflushed buffers go back to the allocator. -/
def World.Reclaim (cache_id : Nat) (w : World) : World :=
  match getFile w.files cache_id with
  | none => w
  | some f =>
    if f.sealed_ then
      { w with
        files := w.files.filter (fun g => decide (g.cache_id ≠ cache_id)),
        cache := { w.cache with
          metadata_ :=
            { index_ := w.cache.metadata_.index_.filter
                (fun e => decide (e.2.cache_id ≠ cache_id)) },
          bufferAllocator_ := w.cache.bufferAllocator_.ReleaseMany f.bufs.length },
        reclaimed := cache_id :: w.reclaimed }
    else w

/-- Modelled from the spec: the transitions of the system: the calls of the public
interface, the steps of the insert thread and of the writer threads (a flush
that succeeds, a flush that fails for good), and the reclaiming of a file. -/
inductive Step where
  | Insert (key : String) (data : Bytes)
  | Lookup (key : String)
  | Erase (key : String)
  | Reserve (size : Nat)
  | Close
  | InsertMain
  | Writer (cache_id : Nat)
  | WriterFail (cache_id : Nat)
  | Reclaim (cache_id : Nat)
deriving DecidableEq

/-- The effect of one transition on the world. -/
def World.step (P : ModelParams) (w : World) : Step → World
  | .Insert key data => (w.Insert key data).2
  | .Lookup key => (w.Lookup key).2
  | .Erase key => (w.Erase key).2
  | .Reserve size => { w with cache := (w.cache.Reserve size).2 }
  | .Close => w.Close.2
  | .InsertMain => w.InsertMain_iteration P
  | .Writer cache_id => w.ThreadedWriter_Complete P cache_id
  | .WriterFail cache_id => w.ThreadedWriter_Fail cache_id
  | .Reclaim cache_id => w.Reclaim cache_id

/-- The effect of a sequence of transitions. -/
def World.run (P : ModelParams) (w : World) (steps : List Step) : World :=
  steps.foldl (World.step P) w

/-- A sequence of `Insert` calls with no other transition in between: the
statuses returned, and the final world. -/
def World.InsertAll : List (String × Bytes) → World → List Status × World
  | [], w => ([], w)
  | (key, data) :: rest, w =>
    let r := w.Insert key data
    let rs := World.InsertAll rest r.2
    (r.1 :: rs.1, rs.2)

/-- A sequence of `Reserve` calls: the final cache. -/
def BlockCacheImpl.ReserveAll : List Nat → BlockCacheImpl → BlockCacheImpl
  | [], c => c
  | size :: rest, c => BlockCacheImpl.ReserveAll rest (c.Reserve size).2

/-! ## Flush_TEST (blockcache.h, lines 80-84) -/

/-- The method `Flush_TEST` (lines 80-84): `while (insert_ops_.Size()) sleep(1);`.
`others n` is what the other threads do to the world during the `n`-th sleep;
`fuel` bounds the number of loop tests.  The result is `none` when the fuel runs
out, and otherwise the world at return with the number of sleeps. -/
def World.Flush_TEST (others : Nat → World → World) : Nat → Nat → World → Option (World × Nat)
  | 0, _, _ => none
  | fuel + 1, n, w =>
    if w.cache.insert_ops_.Size ≠ 0 then World.Flush_TEST others fuel (n + 1) (others n w)
    else some (w, n)

/-- The world after the other threads have acted during sleeps `n`, `n+1`, ...,
`n+k-1`. -/
def sleeps (others : Nat → World → World) : Nat → Nat → World → World
  | 0, _, w => w
  | k + 1, n, w => sleeps others k (n + 1) (others n w)

/-! ## Invariants and examples -/

/-- Example parameters: a two-byte record header (the lengths of key and data),
an index that replaces the location of a key that is already present, and an
insert thread that appends every request. -/
def example_params : ModelParams :=
  { header := fun key data => [UInt8.ofNat key.length, UInt8.ofNat data.length],
    replace_existing := true, drop_present := false }

/-- Example options: buffers of 4 bytes, 3 of them, files of 10 bytes, a backlog
of 8 bytes and a capacity of 100 bytes. -/
def example_options : BlockCacheOptions :=
  { path := "/tmp/db", write_buffer_size := 4, write_buffer_count := 3,
    bufferpool_limit := 12, max_write_pipeline_backlog_size := 8, writer_qdepth := 1,
    cache_file_size := 10, cache_size := 100 }

/-- A run in which one key is inserted once, written to a file and flushed. -/
def example_run : List Step :=
  [.Insert "k" [1, 2, 3], .InsertMain, .Close, .InsertMain, .Writer 1, .Writer 1]

theorem sleeps_succ (others : Nat → World → World) (k n : Nat) (w : World) :
    sleeps others (k + 1) n w = sleeps others k (n + 1) (others n w) := rfl

theorem Flush_TEST_some (others : Nat → World → World) :
    ∀ (fuel n : Nat) (w w1 : World) (r : Nat),
      World.Flush_TEST others fuel n w = some (w1, r) →
      n ≤ r ∧ w1 = sleeps others (r - n) n w ∧ w1.cache.insert_ops_.Size = 0 ∧
        ∀ j, j < r - n → (sleeps others j n w).cache.insert_ops_.Size ≠ 0 := by
  intro fuel
  induction fuel with
  | zero => intro n w w1 r h; simp [World.Flush_TEST] at h
  | succ fuel ih =>
    intro n w w1 r h
    unfold World.Flush_TEST at h
    by_cases hs : w.cache.insert_ops_.Size ≠ 0
    · rw [if_pos hs] at h
      obtain ⟨h1, h2, h3, h4⟩ := ih (n + 1) (others n w) w1 r h
      have e : r - n = (r - (n + 1)) + 1 := by omega
      refine ⟨by omega, ?_, h3, ?_⟩
      · rw [e, sleeps_succ]; exact h2
      · intro j hj
        cases j with
        | zero => exact hs
        | succ j => rw [sleeps_succ]; exact h4 j (by omega)
    · rw [if_neg hs] at h
      simp only [Option.some.injEq, Prod.mk.injEq] at h
      obtain ⟨rfl, rfl⟩ := h
      refine ⟨le_refl _, by simp [sleeps], by simpa using hs, ?_⟩
      intro j hj
      omega

theorem Flush_TEST_total (others : Nat → World → World) :
    ∀ (k fuel n : Nat) (w : World), k < fuel →
      (sleeps others k n w).cache.insert_ops_.Size = 0 →
      ∃ m, m ≤ k ∧ World.Flush_TEST others fuel n w = some (sleeps others m n w, n + m) := by
  intro k
  induction k with
  | zero =>
    intro fuel n w hk hz
    obtain ⟨f, rfl⟩ : ∃ f, fuel = f + 1 := ⟨fuel - 1, by omega⟩
    refine ⟨0, le_refl _, ?_⟩
    have hz0 : w.cache.insert_ops_.Size = 0 := hz
    simp [World.Flush_TEST, hz0, sleeps]
  | succ k ih =>
    intro fuel n w hk hz
    obtain ⟨f, rfl⟩ : ∃ f, fuel = f + 1 := ⟨fuel - 1, by omega⟩
    by_cases hs : w.cache.insert_ops_.Size = 0
    · refine ⟨0, Nat.zero_le _, ?_⟩
      simp [World.Flush_TEST, hs, sleeps]
    · rw [sleeps_succ] at hz
      obtain ⟨m, hm, he⟩ := ih f (n + 1) (others n w) (by omega) hz
      refine ⟨m + 1, by omega, ?_⟩
      unfold World.Flush_TEST
      rw [if_pos hs, he, sleeps_succ]
      have : n + 1 + m = n + (m + 1) := by omega
      rw [this]

/-! ## Theorems on the code of blockcache.h -/

/-- C7: for every configured root path, `GetCachePath()` is exactly the path
followed by `"/cache"`: its length is the length of the path plus 6, the path is
a prefix, `"/cache"` is a suffix, and the path is not normalised (a trailing
slash is kept). -/
theorem GetCachePath_spec (c : BlockCacheImpl) (opt : BlockCacheOptions) (p : String) :
    c.GetCachePath = c.opt_.path ++ "/cache" ∧
    (BlockCacheImpl.ctor opt).GetCachePath = opt.path ++ "/cache" ∧
    c.GetCachePath.length = c.opt_.path.length + 6 ∧
    c.opt_.path.data <+: c.GetCachePath.data ∧
    "/cache".data <:+ c.GetCachePath.data ∧
    ({ c with opt_ := { c.opt_ with path := p ++ "/" } } : BlockCacheImpl).GetCachePath
      = p ++ "//cache" := by
  refine ⟨rfl, rfl, ?_, ?_, ?_, ?_⟩
  · simp only [BlockCacheImpl.GetCachePath, String.length_append]
    rfl
  · exact ⟨"/cache".data, by simp only [BlockCacheImpl.GetCachePath, String.data_append]⟩
  · exact ⟨c.opt_.path.data, by simp only [BlockCacheImpl.GetCachePath, String.data_append]⟩
  · apply String.ext
    simp only [BlockCacheImpl.GetCachePath, String.data_append, List.append_assoc]
    rfl

/-- C8: `InsertOp(key, data, size)` has `key_ = key`, `data_ = data`,
`Size() = size` and `exit_loop_ = false`; `InsertOp(b)` has `exit_loop_ = b`, an
empty key, no data and `Size() = 0`; so a request is never the exit sentinel, and
queueing the sentinel leaves the size of the queue unchanged. -/
theorem InsertOp_ctor_spec (key : String) (data : Option Bytes) (size : Nat) (b : Bool)
    (q : BoundedQueue) :
    (InsertOp.new key data size).key_ = key ∧
    (InsertOp.new key data size).data_ = data ∧
    (InsertOp.new key data size).Size = size ∧
    (InsertOp.new key data size).exit_loop_ = false ∧
    (InsertOp.new_exit b).exit_loop_ = b ∧
    (InsertOp.new_exit b).key_ = "" ∧
    (InsertOp.new_exit b).data_ = none ∧
    (InsertOp.new_exit b).Size = 0 ∧
    InsertOp.new key data size ≠ InsertOp.new_exit true ∧
    ({ q with q_ := q.q_ ++ [InsertOp.new_exit b] } : BoundedQueue).Size = q.Size := by
  refine ⟨rfl, rfl, rfl, rfl, rfl, rfl, rfl, rfl, ?_, ?_⟩
  · intro h
    have := congrArg InsertOp.exit_loop_ h
    simp [InsertOp.new, InsertOp.new_exit] at this
  · simp [BoundedQueue.Size, InsertOp.Size, InsertOp.new_exit]

/-- C9: `PrintStats()` leaves the object unchanged, and its text is the line
`Blockcache stats: ` followed, in this order, by the sections for the bytes
pipelined, the bytes written, the bytes read, `cache_hits` and `cache_misses`,
the last two holding the decimal renderings of the counters; a second call
returns the same text. -/
theorem PrintStats_spec (ToString : HistogramImpl → String) (c : BlockCacheImpl) :
    (c.PrintStats ToString).2 = c ∧
    (c.PrintStats ToString).1 =
      "Blockcache stats: \n" ++
      (("* bytes piplined: \n" ++ (ToString c.stats_.bytes_pipelined_ ++ "\n")) ++
      (("* bytes written:\n" ++ (ToString c.stats_.bytes_written_ ++ "\n")) ++
      (("* bytes read:\n" ++ (ToString c.stats_.bytes_read_ ++ "\n")) ++
      (("* cache_hits:\n" ++ (Nat.repr c.stats_.cache_hits_ ++ "\n")) ++
      ("* cache_misses:\n" ++ (Nat.repr c.stats_.cache_misses_ ++ "\n")))))) ∧
    "Blockcache stats: \n".data <+: (c.PrintStats ToString).1.data ∧
    ((c.PrintStats ToString).2.PrintStats ToString).1 = (c.PrintStats ToString).1 := by
  have h2 : (c.PrintStats ToString).2 = c := rfl
  have h1 : (c.PrintStats ToString).1 =
      "Blockcache stats: \n" ++
      (("* bytes piplined: \n" ++ (ToString c.stats_.bytes_pipelined_ ++ "\n")) ++
      (("* bytes written:\n" ++ (ToString c.stats_.bytes_written_ ++ "\n")) ++
      (("* bytes read:\n" ++ (ToString c.stats_.bytes_read_ ++ "\n")) ++
      (("* cache_hits:\n" ++ (Nat.repr c.stats_.cache_hits_ ++ "\n")) ++
      ("* cache_misses:\n" ++ (Nat.repr c.stats_.cache_misses_ ++ "\n")))))) := by
    apply String.ext
    simp only [BlockCacheImpl.PrintStats, ostringstream.put, ostringstream.endl,
      ostringstream.put_u64, ostringstream.str, String.data_append, List.append_assoc]
    rfl
  refine ⟨h2, h1, ?_, by rw [h2]⟩
  rw [h1, String.data_append]
  exact ⟨_, rfl⟩

/-- C10: right after construction `size_`, `cache_hits_`, `cache_misses_` and
`writerCacheId_` are 0, `cacheFile_` is null, and the buffer allocator has been
initialised with `(opt.write_buffer_size, opt.write_buffer_count,
opt.bufferpool_limit)`; so `size_` is within every capacity. -/
theorem ctor_initial_state (opt : BlockCacheOptions) (capacity : Nat) :
    (BlockCacheImpl.ctor opt).size_ = 0 ∧
    (BlockCacheImpl.ctor opt).stats_.cache_hits_ = 0 ∧
    (BlockCacheImpl.ctor opt).stats_.cache_misses_ = 0 ∧
    (BlockCacheImpl.ctor opt).writerCacheId_ = 0 ∧
    (BlockCacheImpl.ctor opt).cacheFile_ = none ∧
    (BlockCacheImpl.ctor opt).bufferAllocator_ =
      CacheWriteBufferAllocator.Init {} opt.write_buffer_size opt.write_buffer_count
        opt.bufferpool_limit ∧
    (BlockCacheImpl.ctor_events opt).filter
        (fun e => match e with | .allocator_Init _ _ _ => true | _ => false) =
      [.allocator_Init opt.write_buffer_size opt.write_buffer_count opt.bufferpool_limit] ∧
    (BlockCacheImpl.ctor opt).size_ ≤ capacity := by
  refine ⟨rfl, rfl, rfl, rfl, rfl, rfl, rfl, ?_⟩
  show 0 ≤ capacity
  exact Nat.zero_le _

theorem sleeps_id : ∀ (k n : Nat) (w : World), sleeps (fun _ v => v) k n w = w := by
  intro k
  induction k with
  | zero => intro n w; rfl
  | succ k ih => intro n w; rw [sleeps_succ]; exact ih (n + 1) w

/-- C6: `Flush_TEST` blocks until the insert queue drains.  If the other threads
empty the queue within `k` sleeps and the loop may test more than `k` times, the
call returns, after at most `k` sleeps, the world the other threads produced;
whenever the call returns, `insert_ops_.Size()` is 0 in the world at return (its
last check), it was not 0 at any earlier check, and the world at return is the
world at entry changed by the other threads only; with an empty queue at entry
the call returns at once, without sleeping; and when no other thread changes the
world, the world at return is the world at entry. -/
theorem Flush_TEST_spec (others : Nat → World → World) (fuel n k : Nat) (w : World)
    (hk : k < fuel) (hz : (sleeps others k n w).cache.insert_ops_.Size = 0) :
    (∃ m, m ≤ k ∧ World.Flush_TEST others fuel n w = some (sleeps others m n w, n + m)) ∧
    (∀ f w1 r, World.Flush_TEST others f n w = some (w1, r) →
      w1.cache.insert_ops_.Size = 0 ∧ w1 = sleeps others (r - n) n w ∧
      ∀ j, j < r - n → (sleeps others j n w).cache.insert_ops_.Size ≠ 0) ∧
    (w.cache.insert_ops_.Size = 0 → World.Flush_TEST others fuel n w = some (w, n)) ∧
    (∀ f w1 r, World.Flush_TEST (fun _ v => v) f n w = some (w1, r) → w1 = w) := by
  refine ⟨Flush_TEST_total others k fuel n w hk hz, ?_, ?_, ?_⟩
  · intro f w1 r h
    obtain ⟨_, h2, h3, h4⟩ := Flush_TEST_some others f n w w1 r h
    exact ⟨h3, h2, h4⟩
  · intro h0
    obtain ⟨f, rfl⟩ : ∃ f, fuel = f + 1 := ⟨fuel - 1, by omega⟩
    simp [World.Flush_TEST, h0]
  · intro f w1 r h
    obtain ⟨_, h2, _, _⟩ := Flush_TEST_some _ f n w w1 r h
    rw [h2, sleeps_id]

/-- C6 (witness): one request is queued and the insert thread makes one pass of its
loop during each sleep; `Flush_TEST` returns after at most one sleep. -/
theorem Flush_TEST_spec_witness :
    (1 < 3 ∧
      (sleeps (fun _ v => v.InsertMain_iteration example_params) 1 0
        ((World.init example_options).Insert "k" [1, 2]).2).cache.insert_ops_.Size = 0) ∧
    ∃ m, m ≤ 1 ∧
      World.Flush_TEST (fun _ v => v.InsertMain_iteration example_params) 3 0
          ((World.init example_options).Insert "k" [1, 2]).2 =
        some (sleeps (fun _ v => v.InsertMain_iteration example_params) m 0
          ((World.init example_options).Insert "k" [1, 2]).2, 0 + m) :=
  ⟨⟨by decide, by decide⟩,
    (Flush_TEST_spec (fun _ v => v.InsertMain_iteration example_params) 3 0 1
      ((World.init example_options).Insert "k" [1, 2]).2 (by decide) (by decide)).1⟩

/-! ## Construction and the insert thread -/

/-- C5 (amended): the insert thread is started by the constructor.  For every
options value, the object right after construction, before any call of `Open()`,
holds in `insert_th_` a started thread with entry point `InsertMain`; the start
is one of the constructor's actions and comes after `opt_` and `insert_ops_`
have been initialised. -/
theorem ctor_starts_insert_thread (opt : BlockCacheOptions) :
    (BlockCacheImpl.ctor opt).insert_th_ = some ThreadEntry.InsertMain ∧
    (World.init opt).cache.insert_th_ = some ThreadEntry.InsertMain ∧
    (World.init opt).exited_ = false ∧
    ∃ before after,
      BlockCacheImpl.ctor_events opt =
        before ++ CtorEvent.thread_start ThreadEntry.InsertMain :: after ∧
      CtorEvent.init Member.opt_ ∈ before ∧
      CtorEvent.init Member.insert_ops_ ∈ before ∧
      CtorEvent.thread_start ThreadEntry.InsertMain ∉ before := by
  refine ⟨rfl, rfl, rfl, [.init .lock_, .init .opt_, .init .insert_ops_], _, rfl, ?_, ?_, ?_⟩
  · simp
  · simp
  · simp

/-- C5 (counterexample): with the example options, the object right after
construction, on which `Open()` has not been called, already has its insert
thread started, and at the start of the thread the only members initialised are
`lock_`, `opt_` and `insert_ops_`: the buffer allocator, the writer and the
metadata index come later in the constructor. -/
theorem insert_thread_running_before_Open :
    ¬ ((BlockCacheImpl.ctor example_options).insert_th_ = none) ∧
    (BlockCacheImpl.ctor_events example_options).takeWhile
        (fun e => decide (e ≠ CtorEvent.thread_start ThreadEntry.InsertMain)) =
      [CtorEvent.init Member.lock_, CtorEvent.init Member.opt_,
       CtorEvent.init Member.insert_ops_] := by
  refine ⟨by decide, by decide⟩

/-! ## Reserve -/

theorem Reserve_size_le (c : BlockCacheImpl) (size : Nat)
    (hc : c.size_ ≤ c.opt_.cache_size) :
    (c.Reserve size).2.size_ ≤ (c.Reserve size).2.opt_.cache_size ∧
    (c.Reserve size).2.opt_ = c.opt_ := by
  unfold BlockCacheImpl.Reserve
  by_cases h : c.size_ + size ≤ c.opt_.cache_size
  · rw [if_pos h]; exact ⟨h, rfl⟩
  · rw [if_neg h]; exact ⟨hc, rfl⟩

theorem ReserveAll_size_le : ∀ (sizes : List Nat) (c : BlockCacheImpl),
    c.size_ ≤ c.opt_.cache_size →
    (c.ReserveAll sizes).size_ ≤ c.opt_.cache_size ∧ (c.ReserveAll sizes).opt_ = c.opt_ := by
  intro sizes
  induction sizes with
  | nil => intro c hc; exact ⟨hc, rfl⟩
  | cons s rest ih =>
    intro c hc
    obtain ⟨h1, h2⟩ := Reserve_size_le c s hc
    obtain ⟨h3, h4⟩ := ih (c.Reserve s).2 h1
    show ((c.Reserve s).2.ReserveAll rest).size_ ≤ c.opt_.cache_size ∧
      ((c.Reserve s).2.ReserveAll rest).opt_ = c.opt_
    rw [h2] at h3 h4
    exact ⟨h3, h4⟩

/-- C2: no overcommit in `Reserve`.  In a state with `size_` within the capacity,
`Reserve(size)` returns true and adds exactly `size` to `size_` when
`size_ + size` is within the capacity, and otherwise returns false and leaves
the whole state unchanged; `size_` stays within the capacity after any sequence
of `Reserve` calls; and on a fresh cache `Reserve(n)`, for `n` within the
capacity, followed by `Reserve(capacity - n + 1)`, fails. -/
theorem Reserve_no_overcommit (c : BlockCacheImpl) (size : Nat) (sizes : List Nat)
    (opt : BlockCacheOptions) (n : Nat)
    (hc : c.size_ ≤ c.opt_.cache_size) (hn : n ≤ opt.cache_size) :
    (c.size_ + size ≤ c.opt_.cache_size →
      c.Reserve size = (true, { c with size_ := c.size_ + size })) ∧
    (c.opt_.cache_size < c.size_ + size → c.Reserve size = (false, c)) ∧
    (c.Reserve size).2.size_ ≤ c.opt_.cache_size ∧
    (c.ReserveAll sizes).size_ ≤ c.opt_.cache_size ∧
    ((BlockCacheImpl.ctor opt).Reserve n).1 = true ∧
    (((BlockCacheImpl.ctor opt).Reserve n).2.Reserve (opt.cache_size - n + 1)).1 = false ∧
    (((BlockCacheImpl.ctor opt).Reserve n).2.Reserve (opt.cache_size - n + 1)).2.size_ = n := by
  have hfresh : (BlockCacheImpl.ctor opt).Reserve n =
      (true, { BlockCacheImpl.ctor opt with size_ := n }) := by
    have h0 : (BlockCacheImpl.ctor opt).size_ + n ≤ (BlockCacheImpl.ctor opt).opt_.cache_size := by
      show 0 + n ≤ opt.cache_size
      omega
    unfold BlockCacheImpl.Reserve
    rw [if_pos h0]
    show (true, { BlockCacheImpl.ctor opt with size_ := 0 + n }) = _
    rw [Nat.zero_add]
  have hsecond : ({ BlockCacheImpl.ctor opt with size_ := n } : BlockCacheImpl).Reserve
      (opt.cache_size - n + 1) = (false, { BlockCacheImpl.ctor opt with size_ := n }) := by
    unfold BlockCacheImpl.Reserve
    have h1 : ¬ (n + (opt.cache_size - n + 1) ≤ opt.cache_size) := by omega
    exact if_neg h1
  refine ⟨?_, ?_, ?_, (ReserveAll_size_le sizes c hc).1, ?_, ?_, ?_⟩
  · intro h
    unfold BlockCacheImpl.Reserve
    rw [if_pos h]
  · intro h
    unfold BlockCacheImpl.Reserve
    rw [if_neg (by omega)]
  · have := Reserve_size_le c size hc
    rw [this.2] at this
    exact this.1
  · rw [hfresh]
  · rw [hfresh]; show (BlockCacheImpl.Reserve _ _).1 = false; rw [hsecond]
  · rw [hfresh]; show (BlockCacheImpl.Reserve _ _).2.size_ = n; rw [hsecond]

/-- C2 (witness): on the example cache of capacity 100, the reservations 60, 50, 40
and 1 leave `size_` within 100, and `Reserve(60)` followed by `Reserve(41)` fails. -/
theorem Reserve_no_overcommit_witness :
    ((BlockCacheImpl.ctor example_options).size_ ≤
        (BlockCacheImpl.ctor example_options).opt_.cache_size ∧
      60 ≤ example_options.cache_size) ∧
    ((BlockCacheImpl.ctor example_options).ReserveAll [60, 50, 40, 1]).size_ ≤ 100 ∧
    (((BlockCacheImpl.ctor example_options).Reserve 60).2.Reserve
      (example_options.cache_size - 60 + 1)).1 = false :=
  ⟨⟨by decide, by decide⟩,
    (Reserve_no_overcommit (BlockCacheImpl.ctor example_options) 7 [60, 50, 40, 1]
      example_options 60 (by decide) (by decide)).2.2.2.1,
    (Reserve_no_overcommit (BlockCacheImpl.ctor example_options) 7 [60, 50, 40, 1]
      example_options 60 (by decide) (by decide)).2.2.2.2.2.1⟩

/-! ## Erase -/

theorem find_filter_ne_none (l : List (String × LBA)) (key : String) :
    (l.filter (fun e => decide (e.1 ≠ key))).find? (fun e => decide (e.1 = key)) = none := by
  rw [List.find?_eq_none]
  intro e he
  have := (List.mem_filter.mp he).2
  simpa using this

theorem Lookup_isSome_iff (m : BlockCacheMetadata) (key : String) :
    (m.Lookup key).isSome = true ↔ ∃ lba, (key, lba) ∈ m.index_ := by
  unfold BlockCacheMetadata.Lookup
  constructor
  · intro h
    cases hf : m.index_.find? (fun e => decide (e.1 = key)) with
    | none => rw [hf] at h; simp at h
    | some e =>
      have h1 := List.find?_some hf
      have h2 := List.mem_of_find?_eq_some hf
      have h3 : e.1 = key := by simpa using h1
      refine ⟨e.2, ?_⟩
      rw [← h3]
      exact h2
  · rintro ⟨lba, hmem⟩
    cases hf : m.index_.find? (fun e => decide (e.1 = key)) with
    | none =>
      rw [List.find?_eq_none] at hf
      have := hf (key, lba) hmem
      simp at this
    | some e => rfl

/-- C3: `Erase` hides the key.  If `Erase(k)` returns true, an immediately
following `Lookup(k)` reports not-found, although the files and their bytes are
untouched; and `Erase(k)` returns true exactly when the index held an entry for
`k` before the call. -/
theorem Erase_hides_key (w : World) (key : String) (h : (w.Erase key).1 = true) :
    ((w.Erase key).2.Lookup key).1 = (Status.NotFound, none) ∧
    (w.Erase key).2.files = w.files ∧
    (∃ lba, (key, lba) ∈ w.cache.metadata_.index_) ∧
    (∀ (v : World) (k : String),
      (v.Erase k).1 = true ↔ ∃ lba, (k, lba) ∈ v.cache.metadata_.index_) := by
  have hiff : ∀ (v : World) (k : String),
      (v.Erase k).1 = true ↔ ∃ lba, (k, lba) ∈ v.cache.metadata_.index_ := by
    intro v k
    exact Lookup_isSome_iff v.cache.metadata_ k
  refine ⟨?_, rfl, (hiff w key).mp h, hiff⟩
  have hl : (w.Erase key).2.cache.metadata_.Lookup key = none := by
    show BlockCacheMetadata.Lookup
      { index_ := w.cache.metadata_.index_.filter (fun e => decide (e.1 ≠ key)) } key = none
    unfold BlockCacheMetadata.Lookup
    rw [find_filter_ne_none]
  unfold World.Lookup
  rw [hl]

/-! ## Insert and the bounded queue -/

theorem Insert_accept (w : World) (key : String) (data : Bytes)
    (h : w.cache.insert_ops_.Size + data.length ≤ w.cache.insert_ops_.max_size_) :
    (w.Insert key data).1 = Status.OK ∧
    (w.Insert key data).2.cache.insert_ops_.q_ =
      w.cache.insert_ops_.q_ ++ [InsertOp.new key (some data) data.length] ∧
    (w.Insert key data).2.cache.insert_ops_.max_size_ = w.cache.insert_ops_.max_size_ ∧
    (w.Insert key data).2.cache.insert_ops_.Size = w.cache.insert_ops_.Size + data.length := by
  have hp : w.cache.insert_ops_.Push (InsertOp.new key (some data) data.length) =
      some { w.cache.insert_ops_ with
        q_ := w.cache.insert_ops_.q_ ++ [InsertOp.new key (some data) data.length] } := by
    unfold BoundedQueue.Push
    exact if_pos h
  unfold World.Insert
  rw [hp]
  refine ⟨rfl, rfl, rfl, ?_⟩
  simp [BoundedQueue.Size, InsertOp.Size, InsertOp.new]

theorem Insert_reject (w : World) (key : String) (data : Bytes)
    (h : w.cache.insert_ops_.max_size_ < w.cache.insert_ops_.Size + data.length) :
    w.Insert key data = (Status.ResourceExhausted, w) := by
  have hp : w.cache.insert_ops_.Push (InsertOp.new key (some data) data.length) = none := by
    unfold BoundedQueue.Push
    exact if_neg (by
      show ¬ (w.cache.insert_ops_.Size + data.length ≤ w.cache.insert_ops_.max_size_)
      omega)
  unfold World.Insert
  rw [hp]

theorem Insert_bound (w : World) (key : String) (data : Bytes)
    (h : w.cache.insert_ops_.Size ≤ w.cache.insert_ops_.max_size_) :
    (w.Insert key data).2.cache.insert_ops_.Size ≤
      (w.Insert key data).2.cache.insert_ops_.max_size_ ∧
    (w.Insert key data).2.cache.insert_ops_.max_size_ = w.cache.insert_ops_.max_size_ := by
  by_cases hc : w.cache.insert_ops_.Size + data.length ≤ w.cache.insert_ops_.max_size_
  · obtain ⟨_, _, h3, h4⟩ := Insert_accept w key data hc
    rw [h3, h4]
    exact ⟨hc, rfl⟩
  · rw [Insert_reject w key data (by omega)]
    exact ⟨h, rfl⟩

theorem InsertAll_bound : ∀ (calls : List (String × Bytes)) (w : World),
    w.cache.insert_ops_.Size ≤ w.cache.insert_ops_.max_size_ →
    (w.InsertAll calls).2.cache.insert_ops_.Size ≤ w.cache.insert_ops_.max_size_ ∧
    (w.InsertAll calls).2.cache.insert_ops_.max_size_ = w.cache.insert_ops_.max_size_ := by
  intro calls
  induction calls with
  | nil => intro w h; exact ⟨h, rfl⟩
  | cons c rest ih =>
    intro w h
    obtain ⟨key, data⟩ := c
    obtain ⟨h1, h2⟩ := Insert_bound w key data h
    obtain ⟨h3, h4⟩ := ih (w.Insert key data).2 h1
    show ((w.Insert key data).2.InsertAll rest).2.cache.insert_ops_.Size ≤ _ ∧
      ((w.Insert key data).2.InsertAll rest).2.cache.insert_ops_.max_size_ = _
    rw [h2] at h3 h4
    exact ⟨h3, h4⟩

theorem InsertAll_status : ∀ (before : List (String × Bytes)) (w : World) (key : String)
    (data : Bytes) (after : List (String × Bytes)),
    (w.InsertAll (before ++ (key, data) :: after)).1[before.length]? =
      some ((w.InsertAll before).2.Insert key data).1 := by
  intro before
  induction before with
  | nil =>
    intro w key data after
    show ((w.Insert key data).1 :: ((w.Insert key data).2.InsertAll after).1)[0]? = _
    rw [List.getElem?_cons_zero]
    rfl
  | cons c rest ih =>
    intro w key data after
    obtain ⟨k, d⟩ := c
    show (((w.Insert k d).1 ::
      ((w.Insert k d).2.InsertAll (rest ++ (key, data) :: after)).1))[rest.length + 1]? = _
    rw [List.getElem?_cons_succ]
    exact ih (w.Insert k d).2 key data after

/-- C4: backpressure on the insert queue.  The queue of a constructed cache is
bounded by exactly `opt.max_write_pipeline_backlog_size`.  In every sequence of
`Insert` calls made while the insert thread does not drain, a call that would
push the backlog past the bound returns `ResourceExhausted` at once and changes
nothing (it does not enqueue), a call within the bound returns `OK` with its
operation queued at the back, and the backlog never exceeds the bound. -/
theorem Insert_backpressure (opt : BlockCacheOptions) (w : World)
    (before after : List (String × Bytes)) (key : String) (data : Bytes)
    (h : w.cache.insert_ops_.Size ≤ w.cache.insert_ops_.max_size_) :
    (BlockCacheImpl.ctor opt).insert_ops_.max_size_ = opt.max_write_pipeline_backlog_size ∧
    (World.init opt).cache.insert_ops_.Size ≤ (World.init opt).cache.insert_ops_.max_size_ ∧
    (w.InsertAll (before ++ (key, data) :: after)).1[before.length]? =
      some ((w.InsertAll before).2.Insert key data).1 ∧
    (w.InsertAll (before ++ (key, data) :: after)).1.length =
      (before ++ (key, data) :: after).length ∧
    (w.cache.insert_ops_.max_size_ <
        (w.InsertAll before).2.cache.insert_ops_.Size + data.length →
      (w.InsertAll before).2.Insert key data =
        (Status.ResourceExhausted, (w.InsertAll before).2)) ∧
    ((w.InsertAll before).2.cache.insert_ops_.Size + data.length ≤
        w.cache.insert_ops_.max_size_ →
      ((w.InsertAll before).2.Insert key data).1 = Status.OK ∧
      ((w.InsertAll before).2.Insert key data).2.cache.insert_ops_.q_ =
        (w.InsertAll before).2.cache.insert_ops_.q_ ++
          [InsertOp.new key (some data) data.length]) ∧
    (w.InsertAll (before ++ (key, data) :: after)).2.cache.insert_ops_.Size ≤
      w.cache.insert_ops_.max_size_ ∧
    (w.InsertAll (before ++ (key, data) :: after)).2.cache.insert_ops_.max_size_ =
      w.cache.insert_ops_.max_size_ := by
  have hb := InsertAll_bound before w h
  have hlen : ∀ (calls : List (String × Bytes)) (v : World),
      (v.InsertAll calls).1.length = calls.length := by
    intro calls
    induction calls with
    | nil => intro v; rfl
    | cons c rest ih =>
      intro v
      obtain ⟨k, d⟩ := c
      show ((v.Insert k d).2.InsertAll rest).1.length + 1 = rest.length + 1
      rw [ih]
  refine ⟨rfl, ?_, InsertAll_status before w key data after, hlen _ w, ?_, ?_,
    (InsertAll_bound _ w h).1, (InsertAll_bound _ w h).2⟩
  · show ([] : List Nat).sum ≤ _
    exact Nat.zero_le _
  · intro hx
    apply Insert_reject
    rw [hb.2]
    exact hx
  · intro hx
    have := Insert_accept (w.InsertAll before).2 key data (by rw [hb.2]; exact hx)
    exact ⟨this.1, this.2.1⟩

/-- C4 (witness): with a backlog bound of 8 bytes, inserts of 3 and 2 bytes are
queued, a following insert of 4 bytes returns `ResourceExhausted` and changes
nothing, and a following insert of 3 bytes is queued. -/
theorem Insert_backpressure_witness :
    (World.init example_options).cache.insert_ops_.Size ≤
        (World.init example_options).cache.insert_ops_.max_size_ ∧
    ((World.init example_options).InsertAll
        ([("a", [1, 2, 3]), ("b", [4, 5])] ++ ("c", [6, 7, 8, 9]) :: [("d", [1, 1, 1])])).1 =
      [Status.OK, Status.OK, Status.ResourceExhausted, Status.OK] ∧
    ((World.init example_options).InsertAll [("a", [1, 2, 3]), ("b", [4, 5])]).2.Insert "c"
        [6, 7, 8, 9] =
      (Status.ResourceExhausted,
        ((World.init example_options).InsertAll [("a", [1, 2, 3]), ("b", [4, 5])]).2) :=
  ⟨by decide, by decide,
    (Insert_backpressure example_options (World.init example_options)
      [("a", [1, 2, 3]), ("b", [4, 5])] [("d", [1, 1, 1])] "c" [6, 7, 8, 9]
      (by decide)).2.2.2.2.1 (by decide)⟩

/-! ## Appending to a cache file keeps it consistent -/

/-- C3 (witness): after the example run the key `"k"` is in the index; `Erase("k")`
returns true, the following `Lookup("k")` reports not-found, and the bytes of the
record are still in the file. -/
theorem Erase_hides_key_witness :
    (((World.init example_options).run example_params example_run).Erase "k").1 = true ∧
    ((((World.init example_options).run example_params example_run).Erase "k").2.Lookup "k").1 =
      (Status.NotFound, none) ∧
    ((((World.init example_options).run example_params example_run).Erase "k").2.files.map
      WriteableCacheFile.disk_) = [[1, 3, 1, 2, 3]] :=
  ⟨by decide,
    (Erase_hides_key ((World.init example_options).run example_params example_run) "k"
      (by decide)).1,
    by decide⟩

end rocksdb
